import Mathlib

set_option maxHeartbeats 1000000

/-!
Shallow embedding of the luks-header-backup tool (src/main.rs).

The program discovers LUKS-encrypted volumes by parsing the export
format of the external enumeration tool, builds backup artifacts with
content-addressed names, and replicates them to local directories and
remote endpoints.  Pure parts (the export-format parser, the SHA-256
content hash, the canonical naming) are embedded as Lean functions;
the effectful parts (subprocess calls, the file system) are embedded
as explicit state passing over oracles describing the environment.
-/

/-! ## Association-list model of the Rust HashMap (insert replaces the key) -/

def insertKV (m : List (String × String)) (k v : String) : List (String × String) :=
  m.filter (fun p => !(p.1 == k)) ++ [(k, v)]

def lookupKV (m : List (String × String)) (k : String) : Option String :=
  (m.find? (fun p => p.1 == k)).map Prod.snd

/-! ## String splitting, mirroring the Rust primitives used by the parser -/

/-- Rust `str::split("\n\n")`: split on each non-overlapping occurrence of a
blank line, scanning left to right.  `acc` is the piece currently being read. -/
def splitNN : List Char → List Char → List (List Char)
  | '\n' :: '\n' :: rest, acc => acc :: splitNN rest []
  | c :: rest, acc => splitNN rest (acc ++ [c])
  | [], acc => [acc]

def splitSegments (s : String) : List String :=
  (splitNN s.data []).map (fun l => ⟨l⟩)

/-- Split on each `'\n'`. -/
def splitNL : List Char → List Char → List (List Char)
  | '\n' :: rest, acc => acc :: splitNL rest []
  | c :: rest, acc => splitNL rest (acc ++ [c])
  | [], acc => [acc]

def stripCR (l : List Char) : List Char :=
  match l.getLast? with
  | some c => if c = '\r' then l.dropLast else l
  | none => l

/-- Rust `str::lines()`: lines are split at `'\n'` or `"\r\n"` terminators,
so one trailing `'\r'` is stripped from each `'\n'`-terminated piece; the
final piece has no terminator and is kept verbatim (a bare trailing
`'\r'` included), except that an empty final piece yields no line. -/
def rustLines (s : String) : List String :=
  let ps := splitNL s.data []
  let terminated := ps.dropLast.map stripCR
  let lastPiece :=
    match ps.getLast? with
    | some [] => []
    | some l => [l]
    | none => []
  (terminated ++ lastPiece).map (fun l => ⟨l⟩)

def splitOnceAux (c : Char) : List Char → Option (List Char × List Char)
  | [] => none
  | x :: xs =>
    if x = c then some ([], xs)
    else
      match splitOnceAux c xs with
      | some (k, v) => some (x :: k, v)
      | none => none

/-- Rust `str::split_once(c)`: split at the first occurrence of `c`;
`none` when `c` does not occur. -/
def rustSplitOnce (l : String) (c : Char) : Option (String × String) :=
  match splitOnceAux c l.data with
  | some (k, v) => some (⟨k⟩, ⟨v⟩)
  | none => none

/-! ## The export-format parser (`parse_blkid_output`, main.rs:45-66) -/

/-- The per-segment key/value map built by the inner loop of
`parse_blkid_output` (main.rs:49-54). -/
def parseSegment (seg : String) : List (String × String) :=
  (rustLines seg).foldl
    (fun m l =>
      match rustSplitOnce l '=' with
      | some (k, v) => insertKV m k v
      | none => m)
    []

/-- The qualification test of `parse_blkid_output` (main.rs:55-62): a segment
contributes the pair (DEVNAME, UUID) exactly when its TYPE is `crypto_LUKS`
and both fields are present. -/
def segEntry (seg : String) : Option (String × String) :=
  let m := parseSegment seg
  if ((lookupKV m "TYPE").map (fun t => t == "crypto_LUKS")).getD false then
    match lookupKV m "DEVNAME", lookupKV m "UUID" with
    | some dev, some uuid => some (dev, uuid)
    | _, _ => none
  else none

/-- Errors of the embedded program. -/
inductive Err where
  | noDestinations
  | notRoot
  | hostnameErr
  | tempDirErr
  | spawnErr
  | cmdFailed
  | decodeErr
  | noLuksDevices
  | buildErr (device : String)
  | mkdirErr (path : String)
  | copyErr (src dst : String)
  | renameErr (src dst : String)
  | remoteCopiesFailed
  deriving DecidableEq, Repr

/-- `parse_blkid_output` (main.rs:45-66): fold qualifying segments into the
result map; the function always returns `Ok`. -/
def parse_blkid_output (s : String) : Except Err (List (String × String)) :=
  .ok ((splitSegments s).foldl
    (fun res seg =>
      match segEntry seg with
      | some (dev, uuid) => insertKV res dev uuid
      | none => res)
    [])

/-! ## SHA-256 (the `sha2` crate computation used at main.rs:115-120),
on byte lists, with 32-bit words as `Nat` reduced modulo `2 ^ 32` -/

def M32 : Nat := 4294967296

def rotr32 (x k : Nat) : Nat := ((x / 2 ^ k) + (x % 2 ^ k) * 2 ^ (32 - k)) % M32

def not32 (x : Nat) : Nat := (M32 - 1) - x

def smallSigma0 (x : Nat) : Nat := rotr32 x 7 ^^^ rotr32 x 18 ^^^ (x / 2 ^ 3)

def smallSigma1 (x : Nat) : Nat := rotr32 x 17 ^^^ rotr32 x 19 ^^^ (x / 2 ^ 10)

def bigSigma0 (x : Nat) : Nat := rotr32 x 2 ^^^ rotr32 x 13 ^^^ rotr32 x 22

def bigSigma1 (x : Nat) : Nat := rotr32 x 6 ^^^ rotr32 x 11 ^^^ rotr32 x 25

/-- The eight 32-bit words of the hash state. -/
structure H8 where
  a : Nat
  b : Nat
  c : Nat
  d : Nat
  e : Nat
  f : Nat
  g : Nat
  h : Nat
  deriving Repr, DecidableEq

def shaInit : H8 :=
  ⟨1779033703, 3144134277, 1013904242, 2773480762,
   1359893119, 2600822924, 528734635, 1541459225⟩

def shaK : List Nat :=
  [1116352408, 1899447441, 3049323471, 3921009573, 961987163,
   1508970993, 2453635748, 2870763221, 3624381080, 310598401,
   607225278, 1426881987, 1925078388, 2162078206, 2614888103,
   3248222580, 3835390401, 4022224774, 264347078, 604807628,
   770255983, 1249150122, 1555081692, 1996064986, 2554220882,
   2821834349, 2952996808, 3210313671, 3336571891, 3584528711,
   113926993, 338241895, 666307205, 773529912, 1294757372,
   1396182291, 1695183700, 1986661051, 2177026350, 2456956037,
   2730485921, 2820302411, 3259730800, 3345764771, 3516065817,
   3600352804, 4094571909, 275423344, 430227734, 506948616,
   659060556, 883997877, 958139571, 1322822218, 1537002063,
   1747873779, 1955562222, 2024104815, 2227730452, 2361852424,
   2428436474, 2756734187, 3204031479, 3329325298]

def scheduleStep (w : List Nat) : Nat :=
  let n := w.length
  (smallSigma1 (w.getD (n - 2) 0) + w.getD (n - 7) 0
    + smallSigma0 (w.getD (n - 15) 0) + w.getD (n - 16) 0) % M32

def schedule (block : List Nat) : List Nat :=
  (List.range 48).foldl (fun w _ => w ++ [scheduleStep w]) block

def roundStep (s : H8) (kw : Nat × Nat) : H8 :=
  let t1 := (s.h + bigSigma1 s.e + ((s.e &&& s.f) ^^^ (not32 s.e &&& s.g)) + kw.1 + kw.2) % M32
  let t2 := (bigSigma0 s.a + ((s.a &&& s.b) ^^^ (s.a &&& s.c) ^^^ (s.b &&& s.c))) % M32
  ⟨(t1 + t2) % M32, s.a, s.b, s.c, (s.d + t1) % M32, s.e, s.f, s.g⟩

def compress (H : H8) (block : List Nat) : H8 :=
  let s := (shaK.zip (schedule block)).foldl roundStep H
  ⟨(H.a + s.a) % M32, (H.b + s.b) % M32, (H.c + s.c) % M32, (H.d + s.d) % M32,
   (H.e + s.e) % M32, (H.f + s.f) % M32, (H.g + s.g) % M32, (H.h + s.h) % M32⟩

def bytesToWord (bs : List Nat) : Nat := bs.foldl (fun acc b => acc * 256 + b % 256) 0

def blockWords (bytes : List Nat) : List Nat :=
  (List.range 16).map (fun i => bytesToWord ((bytes.drop (4 * i)).take 4))

def shaPad (msg : List Nat) : List Nat :=
  let len := msg.length
  let zeros := (64 + 56 - (len + 1) % 64) % 64
  msg ++ [128] ++ List.replicate zeros 0
    ++ (List.range 8).map (fun i => 8 * len / 2 ^ (8 * (7 - i)) % 256)

def wordToBytes (w : Nat) : List Nat :=
  [w / 2 ^ 24 % 256, w / 2 ^ 16 % 256, w / 2 ^ 8 % 256, w % 256]

/-- The hash state after absorbing every padded block of the message. -/
def shaFinal (msg : List Nat) : H8 :=
  let padded := shaPad msg
  (List.range (padded.length / 64)).foldl
    (fun H i => compress H (blockWords ((padded.drop (64 * i)).take 64))) shaInit

/-- The big-endian byte rendering of the eight state words. -/
def digestBytes (H : H8) : List Nat :=
  wordToBytes H.a ++ (wordToBytes H.b ++ (wordToBytes H.c ++ (wordToBytes H.d
    ++ (wordToBytes H.e ++ (wordToBytes H.f ++ (wordToBytes H.g ++ wordToBytes H.h))))))

/-- SHA-256 digest of a byte sequence, as its list of 32 bytes. -/
def sha256 (msg : List Nat) : List Nat := digestBytes (shaFinal msg)

/-! ## Content hash and canonical artifact names (main.rs:115-127) -/

def hexChar (n : Nat) : Char := if n < 10 then Char.ofNat (48 + n) else Char.ofNat (87 + n)

/-- The two lowercase hex characters of the `{byte:02x}` rendering. -/
def byteHexChars (b : Nat) : List Char := [hexChar (b / 16 % 16), hexChar (b % 16)]

/-- `hash_hex` (main.rs:118): every digest byte rendered as two lowercase
hex characters. -/
def hash_hex (bs : List Nat) : String := ⟨(bs.map byteHexChars).flatten⟩

/-- `short_hash` (main.rs:119): the first 8 characters of the hex rendering
of the SHA-256 digest of the header bytes. -/
def shortHash (header : List Nat) : String := ⟨(hash_hex (sha256 header)).data.take 8⟩

def pjoin (dir name : String) : String := dir ++ "/" ++ name

/-- The canonical `.img` file name (main.rs:122-124). -/
def imgName (hostname uuid short : String) : String :=
  "luks_header_backup." ++ hostname ++ "." ++ uuid ++ "." ++ short ++ ".img"

/-- The canonical `.txt` file name (main.rs:125-127). -/
def txtName (hostname uuid short : String) : String :=
  "luks_header_backup." ++ hostname ++ "." ++ uuid ++ "." ++ short ++ ".txt"

/-! ## Subprocess results (`run_command`, main.rs:24-43) -/

inductive SpawnResult where
  | spawnFailed
  | exited (success : Bool) (stdout : List Nat)
  deriving DecidableEq

/-- `run_command` (main.rs:24-43): error when the subprocess cannot be
started or exits unsuccessfully, otherwise its captured stdout bytes. -/
def run_command (r : SpawnResult) : Except Err (List Nat) :=
  match r with
  | .spawnFailed => .error .spawnErr
  | .exited success stdout => if success then .ok stdout else .error .cmdFailed

/-- `get_luks_device_uuid_map` (main.rs:68-76): run the enumeration tool,
decode its stdout as UTF-8 (`decode` models `String::from_utf8`), parse. -/
def get_luks_device_uuid_map (decode : List Nat → Option String) (blkid : SpawnResult) :
    Except Err (List (String × String)) :=
  match run_command blkid with
  | .error e => .error e
  | .ok out =>
    match decode out with
    | none => .error .decodeErr
    | some s => parse_blkid_output s

/-! ## File-system model: a map from path to file content -/

def FS : Type := String → Option (List Nat)

def setFile (fs : FS) (n : String) (c : List Nat) : FS :=
  fun m => if m = n then some c else fs m

def delFile (fs : FS) (n : String) : FS :=
  fun m => if m = n then none else fs m

inductive Op where
  | write (dst : String) (content : List Nat)
  | rename (src dst : String)

def runOp (fs : FS) : Op → FS
  | .write dst c => setFile fs dst c
  | .rename src dst =>
    match fs src with
    | some c => setFile (delFile fs src) dst c
    | none => fs

/-- The states observable while one operation runs: a plain write is not
atomic (every prefix of the content may be visible under the destination
name), a rename is atomic.  The last listed state is the completed one. -/
def opStates (fs : FS) : Op → List FS
  | .write dst c => (List.range (c.length + 1)).map (fun k => setFile fs dst (c.take k))
  | .rename src dst => [runOp fs (.rename src dst)]

def traceStates (fs : FS) : List Op → List FS
  | [] => []
  | op :: ops => opStates fs op ++ traceStates (runOp fs op) ops

def runOps (fs : FS) : List Op → FS
  | [] => fs
  | op :: ops => runOps (runOp fs op) ops

/-! ## Artifact construction (`create_backup_artifacts`, main.rs:85-146) -/

structure BackupArtifacts where
  uuid : String
  img_path : String
  txt_path : String
  short_hash : String
  deriving Repr, DecidableEq

/-- The pure core of `create_backup_artifacts`: the content hash of the
header bytes and the canonical final paths in the staging directory. -/
def create_backup_artifacts (uuid hostname tempPath : String) (header : List Nat) :
    BackupArtifacts :=
  let short := shortHash header
  { uuid := uuid
    img_path := pjoin tempPath (imgName hostname uuid short)
    txt_path := pjoin tempPath (txtName hostname uuid short)
    short_hash := short }

/-- The staging file operations of `create_backup_artifacts`
(main.rs:93-130): the header-backup tool writes the `.img.tmp` file, the
dump output is written to the `.txt.tmp` file, then both are renamed to
their canonical names. -/
def stagingOps (tempPath uuid hostname short : String) (header dump : List Nat) : List Op :=
  [ .write (pjoin tempPath (uuid ++ ".img.tmp")) header,
    .write (pjoin tempPath (uuid ++ ".txt.tmp")) dump,
    .rename (pjoin tempPath (uuid ++ ".img.tmp")) (pjoin tempPath (imgName hostname uuid short)),
    .rename (pjoin tempPath (uuid ++ ".txt.tmp")) (pjoin tempPath (txtName hostname uuid short)) ]

/-- The `.{name}.tmp` temp name used in a local destination (main.rs:200,204). -/
def tmpName (n : String) : String := "." ++ n ++ ".tmp"

/-- The per-artifact local-copy operations (main.rs:200-206): copy each
file to a dotted temp name inside the destination directory, then rename
it onto its final name. -/
def localCopyOps (backupPath imgBase txtBase : String) (header dump : List Nat) : List Op :=
  [ .write (pjoin backupPath (tmpName imgBase)) header,
    .rename (pjoin backupPath (tmpName imgBase)) (pjoin backupPath imgBase),
    .write (pjoin backupPath (tmpName txtBase)) dump,
    .rename (pjoin backupPath (tmpName txtBase)) (pjoin backupPath txtBase) ]

/-! ## Rust `Path::file_name` on the string model of paths -/

/-- The characters after the last path separator. -/
def lastComponent (p : String) : List Char :=
  p.data.foldl (fun acc c => if c = '/' then [] else acc ++ [c]) []

/-- Model of Rust `Path::file_name`. -/
def fileName (p : String) : Option String :=
  if lastComponent p = [] ∨ lastComponent p = ['.'] ∨ lastComponent p = ['.', '.'] then none
  else some ⟨lastComponent p⟩

/-! ## The orchestrator (`main`, main.rs:148-246) -/

inductive Event where
  | checkDest
  | checkRoot
  | getHostname
  | mkTempDir
  | discovery
  | build (device : String)
  | mkdir (path : String)
  | copyFile (src dst : String)
  | renameFile (src dst : String)
  | remote (r : String)
  deriving Repr, DecidableEq

structure Args where
  remote_paths : List String
  backup_paths : List String

/-- Oracle for the environment: privilege, hostname, staging directory,
the enumeration subprocess, the per-device external tool results, and the
failure behaviour of the file system and of the remote transfers. -/
structure World where
  is_root : Bool
  hostname : Option String
  tempDirFail : Bool
  tempDir : String
  blkid : SpawnResult
  decode : List Nat → Option String
  build : String → String → Except Err (List Nat × List Nat)
  mkdirFail : String → Bool
  copyFail : String → String → Bool
  renameFail : String → String → Bool
  remoteFail : String → Bool
  fs0 : FS

/-- The artifact-construction loop (main.rs:186-189): build every discovered
device in order, propagating the first failure (the `?` operator); the
successful staging writes are recorded in the file-system state. -/
def buildAll (w : World) (hostname : String) :
    List (String × String) → FS → (Except Err (List BackupArtifacts)) × FS × List Event
  | [], fs => (.ok [], fs, [])
  | (device, uuid) :: rest, fs =>
    match w.build device uuid with
    | .error e => (.error e, fs, [.build device])
    | .ok (header, dump) =>
      let a := create_backup_artifacts uuid hostname w.tempDir header
      let fs1 := runOps fs (stagingOps w.tempDir uuid hostname (shortHash header) header dump)
      match buildAll w hostname rest fs1 with
      | (.error e, fs2, evs) => (.error e, fs2, .build device :: evs)
      | (.ok arts, fs2, evs) => (.ok (a :: arts), fs2, .build device :: evs)

/-- One artifact copied into one local destination (main.rs:196-209);
every fallible call uses `?`, so the first failure returns immediately. -/
def copyOne (w : World) (bp : String) (a : BackupArtifacts) (fs : FS) :
    (Except Err Unit) × FS × List Event :=
  let nImg := (fileName a.img_path).getD ""
  let nTxt := (fileName a.txt_path).getD ""
  let destImg := pjoin bp nImg
  let tmpImg := pjoin bp (tmpName nImg)
  let evs1 := [Event.copyFile a.img_path tmpImg]
  if w.copyFail a.img_path tmpImg then (.error (.copyErr a.img_path tmpImg), fs, evs1)
  else
    let fs1 := setFile fs tmpImg ((fs a.img_path).getD [])
    let evs2 := evs1 ++ [Event.renameFile tmpImg destImg]
    if w.renameFail tmpImg destImg then (.error (.renameErr tmpImg destImg), fs1, evs2)
    else
      let fs2 := runOp fs1 (.rename tmpImg destImg)
      let destTxt := pjoin bp nTxt
      let tmpTxt := pjoin bp (tmpName nTxt)
      let evs3 := evs2 ++ [Event.copyFile a.txt_path tmpTxt]
      if w.copyFail a.txt_path tmpTxt then (.error (.copyErr a.txt_path tmpTxt), fs2, evs3)
      else
        let fs3 := setFile fs2 tmpTxt ((fs2 a.txt_path).getD [])
        let evs4 := evs3 ++ [Event.renameFile tmpTxt destTxt]
        if w.renameFail tmpTxt destTxt then (.error (.renameErr tmpTxt destTxt), fs3, evs4)
        else (.ok (), runOp fs3 (.rename tmpTxt destTxt), evs4)

/-- The inner artifact loop of a local destination (main.rs:196-209). -/
def copyArtifacts (w : World) (bp : String) :
    List BackupArtifacts → FS → (Except Err Unit) × FS × List Event
  | [], fs => (.ok (), fs, [])
  | a :: rest, fs =>
    match copyOne w bp a fs with
    | (.error e, fs1, evs) => (.error e, fs1, evs)
    | (.ok _, fs1, evs) =>
      match copyArtifacts w bp rest fs1 with
      | (r, fs2, evs2) => (r, fs2, evs ++ evs2)

/-- The local replication loop (main.rs:191-211): create each destination
directory and copy every artifact into it; any failure propagates with `?`
and returns from `main` immediately. -/
def localLoop (w : World) :
    List String → List BackupArtifacts → FS → (Except Err Unit) × FS × List Event
  | [], _, fs => (.ok (), fs, [])
  | bp :: rest, arts, fs =>
    if w.mkdirFail bp then (.error (.mkdirErr bp), fs, [.mkdir bp])
    else
      match copyArtifacts w bp arts fs with
      | (.error e, fs1, evs) => (.error e, fs1, .mkdir bp :: evs)
      | (.ok _, fs1, evs) =>
        match localLoop w rest arts fs1 with
        | (r, fs2, evs2) => (r, fs2, .mkdir bp :: (evs ++ evs2))

/-- The remote replication loop (main.rs:213-242): attempt every remote,
record overall success as the conjunction of the per-remote outcomes, and
fail at the very end when any remote failed. -/
def remoteLoop (w : World) (remotes : List String) (files : List String) :
    (Except Err Unit) × List Event :=
  if files.isEmpty then (.ok (), [])
  else
    let step := remotes.foldl
      (fun (acc : Bool × List Event) r => (acc.1 && !w.remoteFail r, acc.2 ++ [Event.remote r]))
      (true, [])
    (if step.1 then .ok () else .error .remoteCopiesFailed, step.2)

/-- `main` (main.rs:148-246) as a function of the command-line arguments
and the environment oracle: the process outcome, the final file-system
state, and the ordered trace of performed steps. -/
def mainModel (args : Args) (w : World) : (Except Err Unit) × FS × List Event :=
  if args.remote_paths.isEmpty && args.backup_paths.isEmpty then
    (.error .noDestinations, w.fs0, [.checkDest])
  else if !w.is_root then (.error .notRoot, w.fs0, [.checkDest, .checkRoot])
  else
    match w.hostname with
    | none => (.error .hostnameErr, w.fs0, [.checkDest, .checkRoot, .getHostname])
    | some hostname =>
      if w.tempDirFail then
        (.error .tempDirErr, w.fs0, [.checkDest, .checkRoot, .getHostname, .mkTempDir])
      else
        let pre := [Event.checkDest, .checkRoot, .getHostname, .mkTempDir, .discovery]
        match get_luks_device_uuid_map w.decode w.blkid with
        | .error e => (.error e, w.fs0, pre)
        | .ok m =>
          if m.isEmpty then (.error .noLuksDevices, w.fs0, pre)
          else
            match buildAll w hostname m w.fs0 with
            | (.error e, fs1, evs) => (.error e, fs1, pre ++ evs)
            | (.ok arts, fs1, evs) =>
              match localLoop w args.backup_paths arts fs1 with
              | (.error e, fs2, evs2) => (.error e, fs2, pre ++ evs ++ evs2)
              | (.ok _, fs2, evs2) =>
                let files := (arts.map (fun a => [a.img_path, a.txt_path])).flatten
                match remoteLoop w args.remote_paths files with
                | (r, evs3) => (r, fs2, pre ++ evs ++ evs2 ++ evs3)

/-! ## Helper lemmas about the fold/insert structure of the parser -/

theorem foldl_entry_eq (f : String → Option (String × String))
    (segs : List String) (acc : List (String × String)) :
    segs.foldl
      (fun res seg =>
        match f seg with
        | some (dev, uuid) => insertKV res dev uuid
        | none => res) acc
    = (segs.filterMap f).foldl (fun m p => insertKV m p.1 p.2) acc := by
  induction segs generalizing acc with
  | nil => rfl
  | cons s rest ih =>
    cases h : f s with
    | none => simp [List.foldl_cons, List.filterMap_cons, h, ih]
    | some p =>
      cases p with
      | mk dev uuid => simp [List.foldl_cons, List.filterMap_cons, h, ih]

theorem foldl_insertKV_nodup (qs : List (String × String)) :
    ∀ acc, ((acc ++ qs).map Prod.fst).Nodup →
      qs.foldl (fun m p => insertKV m p.1 p.2) acc = acc ++ qs := by
  induction qs with
  | nil => intro acc _; simp
  | cons q rest ih =>
    intro acc h
    have hnotin : ∀ p ∈ acc, p.1 ≠ q.1 := by
      intro p hp heq
      rw [List.map_append, List.nodup_append] at h
      exact h.2.2 (List.mem_map_of_mem Prod.fst hp) (by simp [heq])
    have hins : insertKV acc q.1 q.2 = acc ++ [q] := by
      unfold insertKV
      have hfil : acc.filter (fun p => !(p.1 == q.1)) = acc := by
        apply List.filter_eq_self.mpr
        intro p hp
        simpa using hnotin p hp
      rw [hfil]
    have hmain := ih (acc ++ [q]) (by simpa using h)
    calc (q :: rest).foldl (fun m p => insertKV m p.1 p.2) acc
        = rest.foldl (fun m p => insertKV m p.1 p.2) (insertKV acc q.1 q.2) := rfl
      _ = rest.foldl (fun m p => insertKV m p.1 p.2) (acc ++ [q]) := by rw [hins]
      _ = (acc ++ [q]) ++ rest := hmain
      _ = acc ++ q :: rest := by simp

theorem segEntry_iff (seg dev uuid : String) :
    segEntry seg = some (dev, uuid) ↔
      (lookupKV (parseSegment seg) "TYPE" = some "crypto_LUKS"
        ∧ lookupKV (parseSegment seg) "DEVNAME" = some dev
        ∧ lookupKV (parseSegment seg) "UUID" = some uuid) := by
  simp only [segEntry]
  cases ht : lookupKV (parseSegment seg) "TYPE" with
  | none => simp [ht]
  | some t =>
    have hcond :
        (Option.map (fun x => x == "crypto_LUKS") (some t)).getD false = (t == "crypto_LUKS") :=
      rfl
    rw [hcond]
    by_cases htt : (t == "crypto_LUKS") = true
    · have ht2 : t = "crypto_LUKS" := by simpa using htt
      subst ht2
      rw [if_pos htt]
      cases hd : lookupKV (parseSegment seg) "DEVNAME" with
      | none => simp [hd]
      | some d =>
        cases hu : lookupKV (parseSegment seg) "UUID" with
        | none => simp [hd, hu]
        | some u => simp [hd, hu]
    · rw [if_neg htt]
      have ht2 : ¬ t = "crypto_LUKS" := by simpa using htt
      simp [ht2]

/-! ## C1: what the export-format parser extracts -/

/-- C1: for every export-format input, `parse_blkid_output` succeeds and
its mapping holds exactly one `devicePath -> uuid` entry per segment whose
TYPE is `crypto_LUKS` and which supplies both DEVNAME and UUID (stated
under distinctness of the discovered device paths, the keys of the map);
a `crypto_LUKS` segment missing either field contributes nothing and
causes no error, segments of other types contribute nothing, and the
empty input parses to the empty mapping, not an error. -/
theorem parse_blkid_output_spec (s : String)
    (hkeys : (((splitSegments s).filterMap segEntry).map Prod.fst).Nodup) :
    parse_blkid_output s = .ok ((splitSegments s).filterMap segEntry)
    ∧ parse_blkid_output "" = .ok []
    ∧ (∀ seg dev uuid, segEntry seg = some (dev, uuid) ↔
        (lookupKV (parseSegment seg) "TYPE" = some "crypto_LUKS"
          ∧ lookupKV (parseSegment seg) "DEVNAME" = some dev
          ∧ lookupKV (parseSegment seg) "UUID" = some uuid)) := by
  refine ⟨?_, rfl, ?_⟩
  · unfold parse_blkid_output
    rw [foldl_entry_eq segEntry (splitSegments s) []]
    rw [foldl_insertKV_nodup _ [] (by simpa using hkeys)]
    simp
  · intro seg dev uuid
    exact segEntry_iff seg dev uuid

/-- Witness for C1 at the repository's own sample input. -/
theorem parse_blkid_output_spec_witness :
    parse_blkid_output
      "DEVNAME=/dev/sda1\nUUID=1111\nTYPE=crypto_LUKS\n\nDEVNAME=/dev/sda2\nUUID=2222\nTYPE=ext4\n\nDEVNAME=/dev/sdb1\nUUID=3333\nTYPE=crypto_LUKS"
      = .ok [("/dev/sda1", "1111"), ("/dev/sdb1", "3333")] :=
  (parse_blkid_output_spec
    "DEVNAME=/dev/sda1\nUUID=1111\nTYPE=crypto_LUKS\n\nDEVNAME=/dev/sda2\nUUID=2222\nTYPE=ext4\n\nDEVNAME=/dev/sdb1\nUUID=3333\nTYPE=crypto_LUKS"
    (by decide)).1

/-! ## C7: which lines become key/value entries -/

/-- C7 counterexample: a line holding two `=` characters is parsed into an
entry (split at the first `=`), so the parser does not restrict itself to
lines with exactly one `=`. -/
theorem split_once_exact_one_refuted :
    rustSplitOnce "UUID=a=b" '=' = some ("UUID", "a=b")
    ∧ parseSegment "UUID=a=b" = [("UUID", "a=b")]
    ∧ parse_blkid_output "TYPE=crypto_LUKS\nDEVNAME=/dev/x\nUUID=a=b"
        = .ok [("/dev/x", "a=b")] :=
  ⟨rfl, rfl, rfl⟩

theorem splitOnceAux_eq_none_iff (c : Char) (cs : List Char) :
    splitOnceAux c cs = none ↔ c ∉ cs := by
  induction cs with
  | nil => simp [splitOnceAux]
  | cons x xs ih =>
    by_cases hx : x = c
    · subst hx; simp [splitOnceAux]
    · cases hrec : splitOnceAux c xs with
      | none =>
        simp only [splitOnceAux, if_neg hx, hrec]
        simp [List.mem_cons, Ne.symm hx, ← ih, hrec]
      | some p =>
        cases p with
        | mk k v =>
          simp only [splitOnceAux, if_neg hx, hrec]
          simp [List.mem_cons, Ne.symm hx, ← ih, hrec]

theorem splitOnceAux_eq_some (c : Char) (cs : List Char) :
    ∀ k v, splitOnceAux c cs = some (k, v) → cs = k ++ c :: v ∧ c ∉ k := by
  induction cs with
  | nil => intro k v h; simp [splitOnceAux] at h
  | cons x xs ih =>
    intro k v h
    by_cases hx : x = c
    · subst hx
      simp only [splitOnceAux, if_pos rfl] at h
      injection h with h
      injection h with h1 h2
      subst h1; subst h2
      simp
    · simp only [splitOnceAux, if_neg hx] at h
      cases hrec : splitOnceAux c xs with
      | none => rw [hrec] at h; exact absurd h (by simp)
      | some p =>
        cases p with
        | mk k0 v0 =>
          rw [hrec] at h
          injection h with h
          injection h with h1 h2
          subst h1; subst h2
          obtain ⟨hcs, hnot⟩ := ih k0 v0 hrec
          exact ⟨by rw [hcs]; rfl, by simp [hnot, Ne.symm hx]⟩

/-- C7 amended: within a segment, the parser turns into a key/value entry
exactly the lines containing at least one `=` — splitting at the first
`=`, so the key holds no `=` and the value is the rest of the line — and
ignores lines without `=`. -/
theorem split_once_first_split :
    (∀ l : String, rustSplitOnce l '=' = none ↔ '=' ∉ l.data)
    ∧ (∀ (l k v : String), rustSplitOnce l '=' = some (k, v) →
        l.data = k.data ++ '=' :: v.data ∧ '=' ∉ k.data)
    ∧ (∀ seg : String, parseSegment seg =
        ((rustLines seg).filterMap (fun l => rustSplitOnce l '=')).foldl
          (fun m p => insertKV m p.1 p.2) []) := by
  refine ⟨?_, ?_, ?_⟩
  · intro l
    constructor
    · intro hnone
      apply (splitOnceAux_eq_none_iff '=' l.data).mp
      unfold rustSplitOnce at hnone
      cases h : splitOnceAux '=' l.data with
      | none => rfl
      | some p =>
        cases p with
        | mk k v =>
          rw [h] at hnone
          exact absurd hnone (by simp)
    · intro hc
      unfold rustSplitOnce
      rw [(splitOnceAux_eq_none_iff '=' l.data).mpr hc]
  · intro l k v h
    unfold rustSplitOnce at h
    cases haux : splitOnceAux '=' l.data with
    | none => rw [haux] at h; exact absurd h (by simp)
    | some p =>
      cases p with
      | mk kd vd =>
        rw [haux] at h
        injection h with h
        injection h with h1 h2
        obtain ⟨hcs, hnot⟩ := splitOnceAux_eq_some '=' l.data kd vd haux
        subst h1; subst h2
        exact ⟨hcs, hnot⟩
  · intro seg
    unfold parseSegment
    exact foldl_entry_eq (fun l => rustSplitOnce l '=') (rustLines seg) []

/-- Witness for C7 amended, at a line holding two `=` characters. -/
theorem split_once_first_split_witness :
    ("A=B=C" : String).data = ("A" : String).data ++ '=' :: ("B=C" : String).data
    ∧ '=' ∉ ("A" : String).data :=
  split_once_first_split.2.1 "A=B=C" "A" "B=C" rfl

/-! ## C8: when discovery can fail -/

/-- C8: discovery fails exactly when the enumeration subprocess cannot be
started, exits unsuccessfully, or its output does not decode as text; for
every decodable output it returns the parsed (possibly empty) mapping, and
the parsing stage never errors on any input string. -/
theorem discovery_failure_modes (decode : List Nat → Option String) (r : SpawnResult) :
    ((∃ e, get_luks_device_uuid_map decode r = .error e) ↔
      (r = .spawnFailed ∨ (∃ out, r = .exited false out)
        ∨ (∃ out, r = .exited true out ∧ decode out = none)))
    ∧ (∀ s, ∃ m, parse_blkid_output s = .ok m)
    ∧ (∀ out s, r = .exited true out → decode out = some s →
        get_luks_device_uuid_map decode r = parse_blkid_output s) := by
  refine ⟨?_, fun s => ⟨_, rfl⟩, ?_⟩
  · cases r with
    | spawnFailed =>
      constructor
      · intro _; exact Or.inl rfl
      · intro _; exact ⟨.spawnErr, rfl⟩
    | exited success stdout =>
      cases success with
      | false =>
        constructor
        · intro _; exact Or.inr (Or.inl ⟨stdout, rfl⟩)
        · intro _; exact ⟨.cmdFailed, rfl⟩
      | true =>
        cases hdec : decode stdout with
        | none =>
          constructor
          · intro _; exact Or.inr (Or.inr ⟨stdout, rfl, hdec⟩)
          · intro _
            refine ⟨.decodeErr, ?_⟩
            simp [get_luks_device_uuid_map, run_command, hdec]
        | some s =>
          constructor
          · rintro ⟨e, he⟩
            simp [get_luks_device_uuid_map, run_command, hdec, parse_blkid_output] at he
          · rintro (h | ⟨out, h⟩ | ⟨out, h, hd⟩)
            · exact absurd h (by simp)
            · exact absurd h (by simp)
            · injection h with h1 h2
              subst h2
              rw [hdec] at hd
              exact absurd hd (by simp)
  · intro out s hr hdec
    subst hr
    simp [get_luks_device_uuid_map, run_command, hdec]

/-- Witness for C8: a successful run with decodable empty output yields the
empty mapping. -/
theorem discovery_failure_modes_witness :
    get_luks_device_uuid_map (fun _ => some "") (.exited true []) = .ok [] :=
  (discovery_failure_modes (fun _ => some "") (.exited true [])).2.2 [] "" rfl rfl

/-! ## C5: content hash and canonical naming -/

theorem string_data_append (a b : String) : (a ++ b).data = a.data ++ b.data := by
  cases a; cases b; rfl

theorem digestBytes_take_four (H : H8) : (digestBytes H).take 4 = wordToBytes H.a := by
  simp [digestBytes, wordToBytes]

theorem digestBytes_hex_take_eight (H : H8) :
    (((digestBytes H).map byteHexChars).flatten).take 8
      = ((wordToBytes H.a).map byteHexChars).flatten := by
  simp [digestBytes, wordToBytes, byteHexChars]

theorem digestBytes_length (H : H8) : (digestBytes H).length = 32 := by
  simp [digestBytes, wordToBytes]

theorem hash_hex_length (bs : List Nat) : (hash_hex bs).data.length = 2 * bs.length := by
  induction bs with
  | nil => rfl
  | cons b rest ih =>
    have : (hash_hex (b :: rest)).data = byteHexChars b ++ (hash_hex rest).data := rfl
    rw [this]
    simp [byteHexChars] at *
    omega

theorem hexChar_mem_lowercase : ∀ n < 16, hexChar n ∈ ("0123456789abcdef" : String).data := by
  decide

theorem shortHash_chars (header : List Nat) :
    ∀ c ∈ (shortHash header).data, c ∈ ("0123456789abcdef" : String).data := by
  intro c hc
  have hc1 : c ∈ ((sha256 header).map byteHexChars).flatten :=
    List.mem_of_mem_take hc
  rw [List.mem_flatten] at hc1
  obtain ⟨l, hl, hcl⟩ := hc1
  rw [List.mem_map] at hl
  obtain ⟨b, _, hbl⟩ := hl
  subst hbl
  simp only [byteHexChars, List.mem_cons, List.not_mem_nil, or_false] at hcl
  rcases hcl with h | h
  · exact h ▸ hexChar_mem_lowercase (b / 16 % 16) (Nat.mod_lt _ (by norm_num))
  · exact h ▸ hexChar_mem_lowercase (b % 16) (Nat.mod_lt _ (by norm_num))

/-- C5: the content hash is a deterministic function of the raw header
bytes — the first 4 bytes of the SHA-256 digest rendered as 8 lowercase
hex characters — and the canonical artifact file names are exactly
`luks_header_backup.<hostname>.<uuid>.<hash>.img` and the matching
`.txt`, so byte-identical headers on the same host with the same uuid
yield identical canonical file names. -/
theorem content_hash_and_naming (header header2 : List Nat)
    (uuid hostname tempPath : String) :
    shortHash header = ⟨(((sha256 header).take 4).map byteHexChars).flatten⟩
    ∧ (shortHash header).data.length = 8
    ∧ (∀ c ∈ (shortHash header).data, c ∈ ("0123456789abcdef" : String).data)
    ∧ (create_backup_artifacts uuid hostname tempPath header).img_path
        = tempPath ++ "/"
          ++ ("luks_header_backup." ++ hostname ++ "." ++ uuid ++ "." ++ shortHash header ++ ".img")
    ∧ (create_backup_artifacts uuid hostname tempPath header).txt_path
        = tempPath ++ "/"
          ++ ("luks_header_backup." ++ hostname ++ "." ++ uuid ++ "." ++ shortHash header ++ ".txt")
    ∧ (header = header2 →
        shortHash header = shortHash header2
        ∧ (create_backup_artifacts uuid hostname tempPath header).img_path
            = (create_backup_artifacts uuid hostname tempPath header2).img_path
        ∧ (create_backup_artifacts uuid hostname tempPath header).txt_path
            = (create_backup_artifacts uuid hostname tempPath header2).txt_path) := by
  refine ⟨?_, ?_, shortHash_chars header, rfl, rfl, ?_⟩
  · show String.mk ((((sha256 header).map byteHexChars).flatten).take 8) = _
    rw [show sha256 header = digestBytes (shaFinal header) from rfl]
    rw [digestBytes_hex_take_eight, digestBytes_take_four]
  · show (((hash_hex (sha256 header)).data).take 8).length = 8
    rw [List.length_take, hash_hex_length,
      show sha256 header = digestBytes (shaFinal header) from rfl, digestBytes_length]
    norm_num
  · intro h
    subst h
    exact ⟨rfl, rfl, rfl⟩

/-- Witness for C5 at a concrete one-byte header. -/
theorem content_hash_and_naming_witness :
    shortHash [0] = "6e340b9c"
    ∧ (create_backup_artifacts "u1" "host1" "/tmp/x" [0]).img_path
        = "/tmp/x/luks_header_backup.host1.u1.6e340b9c.img"
    ∧ shortHash [0] = shortHash [0] := by
  refine ⟨by rfl, by rfl, ?_⟩
  exact ((content_hash_and_naming [0] [0] "u1" "host1" "/tmp/x").2.2.2.2.2 rfl).1

/-! ## C10: artifact paths always carry a usable file name -/

theorem foldl_comp_no_slash :
    ∀ (cs : List Char) (a : List Char), (∀ c ∈ cs, c ≠ '/') →
      cs.foldl (fun acc c => if c = '/' then [] else acc ++ [c]) a = a ++ cs := by
  intro cs
  induction cs with
  | nil => intro a _; simp
  | cons x xs ih =>
    intro a h
    have hx : x ≠ '/' := h x (by simp)
    simp only [List.foldl_cons, if_neg hx]
    rw [ih (a ++ [x]) (fun c hc => h c (by simp [hc]))]
    simp

theorem lastComponent_append_no_slash (p suf : String) (hsuf : ∀ c ∈ suf.data, c ≠ '/') :
    lastComponent (p ++ suf) = lastComponent p ++ suf.data := by
  unfold lastComponent
  rw [string_data_append, List.foldl_append]
  exact foldl_comp_no_slash suf.data _ hsuf

theorem string_append_assoc (a b c : String) : a ++ b ++ c = a ++ (b ++ c) := by
  cases a with
  | mk la =>
    cases b with
    | mk lb =>
      cases c with
      | mk lc =>
        show String.mk (la ++ lb ++ lc) = String.mk (la ++ (lb ++ lc))
        rw [List.append_assoc]

theorem fileName_of_suffix (Y suf : String) (hsuf : ∀ c ∈ suf.data, c ≠ '/')
    (hlen : 2 < suf.data.length) :
    ∃ n, fileName (Y ++ suf) = some n ∧ n ≠ "" := by
  have hlc : lastComponent (Y ++ suf) = lastComponent Y ++ suf.data :=
    lastComponent_append_no_slash Y suf hsuf
  have hlen2 : 2 < (lastComponent (Y ++ suf)).length := by
    rw [hlc, List.length_append]
    omega
  have hne : ¬(lastComponent (Y ++ suf) = [] ∨ lastComponent (Y ++ suf) = ['.']
      ∨ lastComponent (Y ++ suf) = ['.', '.']) := by
    rintro (h | h | h) <;> rw [h] at hlen2 <;> simp at hlen2
  refine ⟨⟨lastComponent (Y ++ suf)⟩, ?_, ?_⟩
  · unfold fileName
    rw [if_neg hne]
  · intro h
    have hd : lastComponent (Y ++ suf) = [] := congrArg String.data h
    rw [hd] at hlen2
    simp at hlen2

/-- C10: for every artifact produced by `create_backup_artifacts`, both
paths end in a non-empty file name (which, paths being modelled as Lean
strings, is valid text), so the `file_name().unwrap()` and
`to_str().unwrap()` calls of the local-copy path (main.rs:196-206) never
panic. -/
theorem artifact_file_names (uuid hostname tempPath : String) (header : List Nat) :
    (∃ n, fileName (create_backup_artifacts uuid hostname tempPath header).img_path = some n
      ∧ n ≠ "")
    ∧ (∃ n, fileName (create_backup_artifacts uuid hostname tempPath header).txt_path = some n
      ∧ n ≠ "") := by
  constructor
  · have he : (create_backup_artifacts uuid hostname tempPath header).img_path
        = (tempPath ++ "/" ++ ("luks_header_backup." ++ hostname ++ "." ++ uuid ++ "."
            ++ shortHash header)) ++ ".img" := by
      show tempPath ++ "/" ++ ("luks_header_backup." ++ hostname ++ "." ++ uuid ++ "."
            ++ shortHash header ++ ".img") = _
      exact (string_append_assoc _ _ _).symm
    rw [he]
    exact fileName_of_suffix _ ".img" (by decide) (by decide)
  · have he : (create_backup_artifacts uuid hostname tempPath header).txt_path
        = (tempPath ++ "/" ++ ("luks_header_backup." ++ hostname ++ "." ++ uuid ++ "."
            ++ shortHash header)) ++ ".txt" := by
      show tempPath ++ "/" ++ ("luks_header_backup." ++ hostname ++ "." ++ uuid ++ "."
            ++ shortHash header ++ ".txt") = _
      exact (string_append_assoc _ _ _).symm
    rw [he]
    exact fileName_of_suffix _ ".txt" (by decide) (by decide)

/-! ## A default environment oracle for concrete runs -/

def defWorld : World :=
  { is_root := true
    hostname := some "h"
    tempDirFail := false
    tempDir := "/stage"
    blkid := .exited true []
    decode := fun _ => some ""
    build := fun _ _ => .ok ([], [])
    mkdirFail := fun _ => false
    copyFail := fun _ _ => false
    renameFail := fun _ _ => false
    remoteFail := fun _ => false
    fs0 := fun _ => none }

/-! ## C6: remote replication isolates failures per destination -/

theorem remoteLoop_foldl (w : World) (remotes : List String) :
    ∀ acc : Bool × List Event,
      remotes.foldl (fun acc r => (acc.1 && !w.remoteFail r, acc.2 ++ [Event.remote r])) acc
      = (acc.1 && remotes.all (fun r => !w.remoteFail r), acc.2 ++ remotes.map Event.remote) := by
  induction remotes with
  | nil => intro acc; simp
  | cons r rest ih =>
    intro acc
    rw [List.foldl_cons, ih]
    simp [Bool.and_assoc]

/-- C6: remote replication attempts every remaining destination after a
failure — the trace lists every configured remote — and the overall
outcome succeeds if and only if every destination succeeded. -/
theorem remote_replication_isolation (w : World) (remotes files : List String)
    (hfiles : files ≠ []) :
    (remoteLoop w remotes files).2 = remotes.map Event.remote
    ∧ ((remoteLoop w remotes files).1 = .ok () ↔ ∀ r ∈ remotes, w.remoteFail r = false) := by
  have hf : files.isEmpty = false := by
    cases files with
    | nil => exact absurd rfl hfiles
    | cons a l => rfl
  unfold remoteLoop
  rw [hf]
  simp only [Bool.false_eq_true, if_false]
  rw [remoteLoop_foldl w remotes (true, [])]
  constructor
  · simp
  · simp only [Bool.true_and]
    by_cases hall : remotes.all (fun r => !w.remoteFail r) = true
    · rw [if_pos hall]
      constructor
      · intro _ r hr
        have h := List.all_eq_true.mp hall r hr
        simpa using h
      · intro _
        rfl
    · rw [if_neg hall]
      constructor
      · intro h
        exact absurd h (by simp)
      · intro h
        exfalso
        apply hall
        apply List.all_eq_true.mpr
        intro r hr
        simpa using h r hr

/-- Witness for C6: the second remote is still attempted after the first
fails, and the overall outcome is failure. -/
theorem remote_replication_isolation_witness :
    (remoteLoop { defWorld with remoteFail := fun r => r == "r1" } ["r1", "r2"] ["f"]).2
      = [Event.remote "r1", Event.remote "r2"] :=
  (remote_replication_isolation { defWorld with remoteFail := fun r => r == "r1" }
    ["r1", "r2"] ["f"] (by simp)).1

/-! ## C3: where the privilege check sits in the startup sequence -/

/-- C3 counterexample: a run by a caller lacking the privilege but with no
destination configured fails with the destination-configuration error, not
the privilege error, and its trace holds only the destination check — so
the privilege check is not the very first step. -/
theorem privilege_check_not_first :
    (mainModel ⟨[], []⟩ { defWorld with is_root := false }).1 = .error .noDestinations
    ∧ (mainModel ⟨[], []⟩ { defWorld with is_root := false }).2.2 = [.checkDest] :=
  ⟨rfl, rfl⟩

/-- C3 amended: the privilege check is the second step, right after the
destination-configured check: every run with at least one destination
configured and a caller lacking the privilege fails with the privilege
error before hostname resolution, staging-directory creation, discovery
and every later step. -/
theorem privilege_check_second (args : Args) (w : World)
    (hdest : ¬(args.remote_paths.isEmpty = true ∧ args.backup_paths.isEmpty = true))
    (hroot : w.is_root = false) :
    (mainModel args w).1 = .error .notRoot
    ∧ (mainModel args w).2.2 = [.checkDest, .checkRoot] := by
  have hc : (args.remote_paths.isEmpty && args.backup_paths.isEmpty) = false := by
    cases h1 : args.remote_paths.isEmpty <;> cases h2 : args.backup_paths.isEmpty <;>
      simp_all
  unfold mainModel
  rw [hc, hroot]
  exact ⟨rfl, rfl⟩

/-- Witness for C3 amended: one remote destination, non-root caller. -/
theorem privilege_check_second_witness :
    (mainModel ⟨["r"], []⟩ { defWorld with is_root := false }).1 = .error .notRoot :=
  (privilege_check_second ⟨["r"], []⟩ { defWorld with is_root := false }
    (by simp) rfl).1

/-! ## C4: fail-fast before replication -/

/-- Steps that belong to the replication phase. -/
def isReplication : Event → Bool
  | .mkdir _ => true
  | .copyFile _ _ => true
  | .renameFile _ _ => true
  | .remote _ => true
  | _ => false

theorem buildAll_error (w : World) (host : String) :
    ∀ (m : List (String × String)) (fs : FS),
      (∃ p ∈ m, ∃ e, w.build p.1 p.2 = .error e) →
      (∃ e, (buildAll w host m fs).1 = .error e)
      ∧ (buildAll w host m fs).2.2.all (fun ev => !isReplication ev) = true := by
  intro m
  induction m with
  | nil =>
    intro fs h
    simp at h
  | cons p rest ih =>
    intro fs h
    cases p with
    | mk device uuid =>
      cases hb : w.build device uuid with
      | error e =>
        refine ⟨⟨e, ?_⟩, ?_⟩
        · simp [buildAll, hb]
        · simp [buildAll, hb, isReplication]
      | ok hd =>
        cases hd with
        | mk header dump =>
          have hrest : ∃ p ∈ rest, ∃ e, w.build p.1 p.2 = .error e := by
            obtain ⟨q, hq, e, he⟩ := h
            rcases List.mem_cons.mp hq with h1 | h1
            · rw [h1] at he
              rw [hb] at he
              exact absurd he (by simp)
            · exact ⟨q, h1, e, he⟩
          obtain ⟨⟨e0, he0⟩, hall⟩ := ih
            (runOps fs (stagingOps w.tempDir uuid host (shortHash header) header dump)) hrest
          rcases hrec : buildAll w host rest
              (runOps fs (stagingOps w.tempDir uuid host (shortHash header) header dump))
            with ⟨r, fs2, evs⟩
          rw [hrec] at he0 hall
          cases r with
          | ok arts => exact absurd he0 (by simp)
          | error e1 =>
            refine ⟨⟨e1, ?_⟩, ?_⟩
            · simp [buildAll, hb, hrec]
            · simp only [buildAll, hb, hrec]
              simp only [List.all_cons, isReplication, Bool.not_false, Bool.true_and]
              simpa using hall

/-- C4: the run is fail-fast before replication: empty discovery fails the
run with no replication step in the trace, and a build failure for any
single discovered volume aborts the run with no replication step in the
trace. -/
theorem fail_fast_before_replication (args : Args) (w : World) (host : String)
    (hdest : (args.remote_paths.isEmpty && args.backup_paths.isEmpty) = false)
    (hroot : w.is_root = true) (hhost : w.hostname = some host)
    (htmp : w.tempDirFail = false) :
    (get_luks_device_uuid_map w.decode w.blkid = .ok [] →
      (mainModel args w).1 = .error .noLuksDevices
      ∧ (mainModel args w).2.2.all (fun ev => !isReplication ev) = true)
    ∧ (∀ m, get_luks_device_uuid_map w.decode w.blkid = .ok m →
        (∃ p ∈ m, ∃ e, w.build p.1 p.2 = .error e) →
        (∃ e, (mainModel args w).1 = .error e)
        ∧ (mainModel args w).2.2.all (fun ev => !isReplication ev) = true) := by
  constructor
  · intro hdisc
    unfold mainModel
    rw [hdest, hroot, hhost, htmp, hdisc]
    exact ⟨rfl, rfl⟩
  · intro m hdisc hfail
    cases m with
    | nil =>
      obtain ⟨q, hq, _⟩ := hfail
      simp at hq
    | cons p0 mrest =>
      obtain ⟨⟨e0, he0⟩, hall⟩ := buildAll_error w host (p0 :: mrest) w.fs0 hfail
      rcases hba : buildAll w host (p0 :: mrest) w.fs0 with ⟨r, fs2, evs⟩
      rw [hba] at he0 hall
      cases r with
      | ok arts => exact absurd he0 (by simp)
      | error e1 =>
        unfold mainModel
        simp only [hdest, hroot, hhost, htmp, hdisc, hba, List.isEmpty_cons,
          Bool.not_true, Bool.false_eq_true, if_false]
        refine ⟨⟨e1, rfl⟩, ?_⟩
        simp only [List.all_append, Bool.and_eq_true]
        exact ⟨rfl, by simpa using hall⟩

/-- Witness for C4: one discovered volume whose artifact build fails. -/
theorem fail_fast_before_replication_witness :
    (mainModel ⟨[], ["d"]⟩
      { defWorld with
          decode := fun _ => some "DEVNAME=/dev/a\nUUID=u\nTYPE=crypto_LUKS"
          build := fun _ _ => .error (.buildErr "/dev/a") }).2.2.all
      (fun ev => !isReplication ev) = true :=
  ((fail_fast_before_replication ⟨[], ["d"]⟩
      { defWorld with
          decode := fun _ => some "DEVNAME=/dev/a\nUUID=u\nTYPE=crypto_LUKS"
          build := fun _ _ => .error (.buildErr "/dev/a") } "h"
      rfl rfl rfl rfl).2 [("/dev/a", "u")] rfl
      ⟨("/dev/a", "u"), by simp, .buildErr "/dev/a", rfl⟩).2

/-! ## C2: behaviour of local replication under a copy failure -/

def cexArtifact : BackupArtifacts :=
  { uuid := "u", img_path := "/stage/a.img", txt_path := "/stage/a.txt", short_hash := "s" }

/-- A world where the copy into the first destination's temp name fails. -/
def cexWorld : World :=
  { defWorld with copyFail := fun _ dst => dst == "d1/.a.img.tmp" }

/-- C2 counterexample: with two local destinations and a copy failure at
the first, the run aborts at the failing copy — the second destination is
never attempted (no step for it appears in the trace), contradicting
per-destination failure isolation for local destinations. -/
theorem local_copy_not_isolated :
    (localLoop cexWorld ["d1", "d2"] [cexArtifact] (fun _ => none)).2.2
      = [.mkdir "d1", .copyFile "/stage/a.img" "d1/.a.img.tmp"]
    ∧ Event.mkdir "d2" ∉ (localLoop cexWorld ["d1", "d2"] [cexArtifact] (fun _ => none)).2.2
    ∧ (localLoop cexWorld ["d1", "d2"] [cexArtifact] (fun _ => none)).1
        = .error (.copyErr "/stage/a.img" "d1/.a.img.tmp") :=
  ⟨rfl, by decide, rfl⟩

/-- A world where the copy into the second destination's temp name fails. -/
def cex2World : World :=
  { defWorld with copyFail := fun _ dst => dst == "d2/.a.img.tmp" }

/-- C2 amended: local replication is fail-fast, not isolated per
destination: the first copy failure aborts the run immediately — nothing
after the failing copy is attempted and the run reports failure — while
files fully copied to destinations before the failure are retained. -/
theorem local_copy_fail_fast (h d : List Nat) :
    (localLoop cex2World ["d1", "d2"] [cexArtifact]
        (setFile (setFile (fun _ => none) "/stage/a.img" h) "/stage/a.txt" d)).1
      = .error (.copyErr "/stage/a.img" "d2/.a.img.tmp")
    ∧ (localLoop cex2World ["d1", "d2"] [cexArtifact]
        (setFile (setFile (fun _ => none) "/stage/a.img" h) "/stage/a.txt" d)).2.1 "d1/a.img"
      = some h
    ∧ (localLoop cex2World ["d1", "d2"] [cexArtifact]
        (setFile (setFile (fun _ => none) "/stage/a.img" h) "/stage/a.txt" d)).2.1 "d1/a.txt"
      = some d
    ∧ (localLoop cex2World ["d1", "d2"] [cexArtifact]
        (setFile (setFile (fun _ => none) "/stage/a.img" h) "/stage/a.txt" d)).2.2
      = [.mkdir "d1", .copyFile "/stage/a.img" "d1/.a.img.tmp",
         .renameFile "d1/.a.img.tmp" "d1/a.img", .copyFile "/stage/a.txt" "d1/.a.txt.tmp",
         .renameFile "d1/.a.txt.tmp" "d1/a.txt", .mkdir "d2",
         .copyFile "/stage/a.img" "d2/.a.img.tmp"] := by
  refine ⟨rfl, ?_, ?_, rfl⟩
  · rfl
  · rfl

/-! ## C9: atomic visibility of canonical names -/

theorem setFile_ne (fs : FS) (n m : String) (c : List Nat) (h : m ≠ n) :
    setFile fs n c m = fs m := by
  simp [setFile, h]

theorem setFile_self (fs : FS) (n : String) (c : List Nat) : setFile fs n c n = some c := by
  simp [setFile]

theorem delFile_ne (fs : FS) (n m : String) (h : m ≠ n) : delFile fs n m = fs m := by
  simp [delFile, h]

theorem mem_opStates_write (fs fs2 : FS) (dst : String) (c : List Nat)
    (h : fs2 ∈ opStates fs (.write dst c)) : ∃ k, fs2 = setFile fs dst (c.take k) := by
  simp only [opStates, List.mem_map, List.mem_range] at h
  obtain ⟨k, _, hk⟩ := h
  exact ⟨k, hk.symm⟩

/-- Invariant for the sequence write t1, write t2, rename t1 to f1,
rename t2 to f2 (the staging order): the final names only ever appear
with their complete content. -/
theorem staged_pair_writes_first (fs0 : FS) (t1 t2 f1 f2 : String) (c1 c2 : List Nat)
    (h11 : t1 ≠ f1) (h12 : t1 ≠ f2) (h21 : t2 ≠ f1) (h22 : t2 ≠ f2)
    (ht : t1 ≠ t2) (hf : f1 ≠ f2)
    (hf1 : fs0 f1 = none) (hf2 : fs0 f2 = none) :
    ∀ fs ∈ traceStates fs0 [.write t1 c1, .write t2 c2, .rename t1 f1, .rename t2 f2],
      (fs f1 = none ∨ fs f1 = some c1) ∧ (fs f2 = none ∨ fs f2 = some c2) := by
  intro fs hmem
  have hv1 : setFile (setFile fs0 t1 c1) t2 c2 t1 = some c1 := by
    rw [setFile_ne (setFile fs0 t1 c1) t2 t1 c2 ht]
    exact setFile_self fs0 t1 c1
  have e3 : runOp (setFile (setFile fs0 t1 c1) t2 c2) (Op.rename t1 f1)
      = setFile (delFile (setFile (setFile fs0 t1 c1) t2 c2) t1) f1 c1 := by
    simp only [runOp, hv1]
  have hv2 : setFile (delFile (setFile (setFile fs0 t1 c1) t2 c2) t1) f1 c1 t2 = some c2 := by
    rw [setFile_ne _ f1 t2 c1 h21, delFile_ne _ t1 t2 (Ne.symm ht)]
    exact setFile_self (setFile fs0 t1 c1) t2 c2
  have e4 : runOp (setFile (delFile (setFile (setFile fs0 t1 c1) t2 c2) t1) f1 c1)
        (Op.rename t2 f2)
      = setFile
          (delFile (setFile (delFile (setFile (setFile fs0 t1 c1) t2 c2) t1) f1 c1) t2)
          f2 c2 := by
    simp only [runOp, hv2]
  have htr : traceStates fs0 [Op.write t1 c1, Op.write t2 c2, Op.rename t1 f1, Op.rename t2 f2]
      = opStates fs0 (Op.write t1 c1)
        ++ (opStates (setFile fs0 t1 c1) (Op.write t2 c2)
        ++ ([setFile (delFile (setFile (setFile fs0 t1 c1) t2 c2) t1) f1 c1]
        ++ ([setFile
              (delFile (setFile (delFile (setFile (setFile fs0 t1 c1) t2 c2) t1) f1 c1) t2)
              f2 c2]
        ++ []))) := by
    simp only [traceStates]
    rw [show runOp fs0 (Op.write t1 c1) = setFile fs0 t1 c1 from rfl,
      show runOp (setFile fs0 t1 c1) (Op.write t2 c2) = setFile (setFile fs0 t1 c1) t2 c2
        from rfl]
    rw [show opStates (setFile (setFile fs0 t1 c1) t2 c2) (Op.rename t1 f1)
        = [runOp (setFile (setFile fs0 t1 c1) t2 c2) (Op.rename t1 f1)] from rfl, e3]
    rw [show opStates (setFile (delFile (setFile (setFile fs0 t1 c1) t2 c2) t1) f1 c1)
          (Op.rename t2 f2)
        = [runOp (setFile (delFile (setFile (setFile fs0 t1 c1) t2 c2) t1) f1 c1)
            (Op.rename t2 f2)] from rfl, e4]
  rw [htr] at hmem
  rcases List.mem_append.mp hmem with hca | hmem1
  · obtain ⟨k, hk⟩ := mem_opStates_write fs0 fs t1 c1 hca
    subst hk
    constructor
    · exact Or.inl (by rw [setFile_ne fs0 t1 f1 _ (Ne.symm h11)]; exact hf1)
    · exact Or.inl (by rw [setFile_ne fs0 t1 f2 _ (Ne.symm h12)]; exact hf2)
  · rcases List.mem_append.mp hmem1 with hca | hmem2
    · obtain ⟨k, hk⟩ := mem_opStates_write (setFile fs0 t1 c1) fs t2 c2 hca
      subst hk
      constructor
      · exact Or.inl (by
          rw [setFile_ne _ t2 f1 _ (Ne.symm h21), setFile_ne fs0 t1 f1 _ (Ne.symm h11)]
          exact hf1)
      · exact Or.inl (by
          rw [setFile_ne _ t2 f2 _ (Ne.symm h22), setFile_ne fs0 t1 f2 _ (Ne.symm h12)]
          exact hf2)
    · rcases List.mem_append.mp hmem2 with hca | hmem3
      · rw [List.mem_singleton] at hca
        subst hca
        constructor
        · exact Or.inr (setFile_self _ f1 c1)
        · refine Or.inl ?_
          rw [setFile_ne _ f1 f2 _ (Ne.symm hf), delFile_ne _ t1 f2 (Ne.symm h12),
            setFile_ne _ t2 f2 _ (Ne.symm h22), setFile_ne fs0 t1 f2 _ (Ne.symm h12)]
          exact hf2
      · rw [List.append_nil, List.mem_singleton] at hmem3
        subst hmem3
        constructor
        · refine Or.inr ?_
          rw [setFile_ne _ f2 f1 _ hf, delFile_ne _ t2 f1 (Ne.symm h21)]
          exact setFile_self _ f1 c1
        · exact Or.inr (setFile_self _ f2 c2)

/-- Invariant for the sequence write t1, rename t1 to f1, write t2,
rename t2 to f2 (the local-copy order). -/
theorem staged_pair_interleaved (fs0 : FS) (t1 t2 f1 f2 : String) (c1 c2 : List Nat)
    (h11 : t1 ≠ f1) (h12 : t1 ≠ f2) (h21 : t2 ≠ f1) (h22 : t2 ≠ f2)
    (hf : f1 ≠ f2)
    (hf1 : fs0 f1 = none) (hf2 : fs0 f2 = none) :
    ∀ fs ∈ traceStates fs0 [.write t1 c1, .rename t1 f1, .write t2 c2, .rename t2 f2],
      (fs f1 = none ∨ fs f1 = some c1) ∧ (fs f2 = none ∨ fs f2 = some c2) := by
  intro fs hmem
  have e2 : runOp (setFile fs0 t1 c1) (Op.rename t1 f1)
      = setFile (delFile (setFile fs0 t1 c1) t1) f1 c1 := by
    simp only [runOp, setFile_self fs0 t1 c1]
  have hv2 : setFile (setFile (delFile (setFile fs0 t1 c1) t1) f1 c1) t2 c2 t2 = some c2 :=
    setFile_self _ t2 c2
  have e4 : runOp (setFile (setFile (delFile (setFile fs0 t1 c1) t1) f1 c1) t2 c2)
        (Op.rename t2 f2)
      = setFile
          (delFile (setFile (setFile (delFile (setFile fs0 t1 c1) t1) f1 c1) t2 c2) t2)
          f2 c2 := by
    simp only [runOp, hv2]
  have htr : traceStates fs0 [Op.write t1 c1, Op.rename t1 f1, Op.write t2 c2, Op.rename t2 f2]
      = opStates fs0 (Op.write t1 c1)
        ++ ([setFile (delFile (setFile fs0 t1 c1) t1) f1 c1]
        ++ (opStates (setFile (delFile (setFile fs0 t1 c1) t1) f1 c1) (Op.write t2 c2)
        ++ ([setFile
              (delFile (setFile (setFile (delFile (setFile fs0 t1 c1) t1) f1 c1) t2 c2) t2)
              f2 c2]
        ++ []))) := by
    simp only [traceStates]
    rw [show runOp fs0 (Op.write t1 c1) = setFile fs0 t1 c1 from rfl]
    rw [show opStates (setFile fs0 t1 c1) (Op.rename t1 f1)
        = [runOp (setFile fs0 t1 c1) (Op.rename t1 f1)] from rfl, e2]
    rw [show runOp (setFile (delFile (setFile fs0 t1 c1) t1) f1 c1) (Op.write t2 c2)
        = setFile (setFile (delFile (setFile fs0 t1 c1) t1) f1 c1) t2 c2 from rfl]
    rw [show opStates (setFile (setFile (delFile (setFile fs0 t1 c1) t1) f1 c1) t2 c2)
          (Op.rename t2 f2)
        = [runOp (setFile (setFile (delFile (setFile fs0 t1 c1) t1) f1 c1) t2 c2)
            (Op.rename t2 f2)] from rfl, e4]
  have hs2f1 : setFile (delFile (setFile fs0 t1 c1) t1) f1 c1 f1 = some c1 :=
    setFile_self _ f1 c1
  have hs2f2 : setFile (delFile (setFile fs0 t1 c1) t1) f1 c1 f2 = none := by
    rw [setFile_ne _ f1 f2 _ (Ne.symm hf), delFile_ne _ t1 f2 (Ne.symm h12),
      setFile_ne fs0 t1 f2 _ (Ne.symm h12)]
    exact hf2
  rw [htr] at hmem
  rcases List.mem_append.mp hmem with hca | hmem1
  · obtain ⟨k, hk⟩ := mem_opStates_write fs0 fs t1 c1 hca
    subst hk
    constructor
    · exact Or.inl (by rw [setFile_ne fs0 t1 f1 _ (Ne.symm h11)]; exact hf1)
    · exact Or.inl (by rw [setFile_ne fs0 t1 f2 _ (Ne.symm h12)]; exact hf2)
  · rcases List.mem_append.mp hmem1 with hca | hmem2
    · rw [List.mem_singleton] at hca
      subst hca
      exact ⟨Or.inr hs2f1, Or.inl hs2f2⟩
    · rcases List.mem_append.mp hmem2 with hca | hmem3
      · obtain ⟨k, hk⟩ := mem_opStates_write _ fs t2 c2 hca
        subst hk
        constructor
        · refine Or.inr ?_
          rw [setFile_ne _ t2 f1 _ (Ne.symm h21)]
          exact hs2f1
        · refine Or.inl ?_
          rw [setFile_ne _ t2 f2 _ (Ne.symm h22)]
          exact hs2f2
      · rw [List.append_nil, List.mem_singleton] at hmem3
        subst hmem3
        constructor
        · refine Or.inr ?_
          rw [setFile_ne _ f2 f1 _ hf, delFile_ne _ t2 f1 (Ne.symm h21),
            setFile_ne _ t2 f1 _ (Ne.symm h21)]
          exact hs2f1
        · exact Or.inr (setFile_self _ f2 c2)

/-! ### Distinctness of the path names involved -/

def lastChar (s : String) : Option Char := s.data.getLast?

theorem lastChar_append (s t : String) (ht : t.data ≠ []) : lastChar (s ++ t) = lastChar t := by
  unfold lastChar
  rw [string_data_append]
  exact List.getLast?_append_of_ne_nil _ ht

theorem ne_of_lastChar {s t : String} (h : lastChar s ≠ lastChar t) : s ≠ t :=
  fun he => h (by rw [he])

theorem data_append_ne_nil (a b : String) (hb : b.data ≠ []) : (a ++ b).data ≠ [] := by
  rw [string_data_append]
  intro h
  exact hb (List.append_eq_nil.mp h).2

theorem lastChar_pjoin_suffix (dir pre suf : String) (hsuf : suf.data ≠ []) :
    lastChar (pjoin dir (pre ++ suf)) = lastChar suf := by
  unfold pjoin
  rw [lastChar_append (dir ++ "/") (pre ++ suf) (data_append_ne_nil pre suf hsuf),
    lastChar_append pre suf hsuf]

theorem append_ne_of_right_ne (s : String) {a b : String} (h : a ≠ b) : s ++ a ≠ s ++ b := by
  intro he
  apply h
  apply String.ext
  have hd := congrArg String.data he
  rw [string_data_append, string_data_append] at hd
  exact List.append_cancel_left hd

theorem append_ne_of_left_ne {a b : String} (s : String) (h : a ≠ b) : a ++ s ≠ b ++ s := by
  intro he
  apply h
  apply String.ext
  have hd := congrArg String.data he
  rw [string_data_append, string_data_append] at hd
  exact List.append_cancel_right hd

theorem pjoin_ne_of_ne (dir : String) {a b : String} (h : a ≠ b) :
    pjoin dir a ≠ pjoin dir b :=
  append_ne_of_right_ne (dir ++ "/") h

/-- C9: atomic visibility by write-temp-then-rename: along the staging
sequence of `create_backup_artifacts` (main.rs:93-130) and along the
per-artifact local-copy sequence (main.rs:200-206), every observable
intermediate state either lacks the canonical final name or holds it with
the complete content — never a partial file under a canonical name. -/
theorem atomic_visibility (tempPath backupPath hostname uuid short : String)
    (header dump : List Nat) (fs0 fs1 : FS)
    (hs1 : fs0 (pjoin tempPath (imgName hostname uuid short)) = none)
    (hs2 : fs0 (pjoin tempPath (txtName hostname uuid short)) = none)
    (hd1 : fs1 (pjoin backupPath (imgName hostname uuid short)) = none)
    (hd2 : fs1 (pjoin backupPath (txtName hostname uuid short)) = none) :
    (∀ fs ∈ traceStates fs0 (stagingOps tempPath uuid hostname short header dump),
      (fs (pjoin tempPath (imgName hostname uuid short)) = none
        ∨ fs (pjoin tempPath (imgName hostname uuid short)) = some header)
      ∧ (fs (pjoin tempPath (txtName hostname uuid short)) = none
        ∨ fs (pjoin tempPath (txtName hostname uuid short)) = some dump))
    ∧ (∀ fs ∈ traceStates fs1
        (localCopyOps backupPath (imgName hostname uuid short) (txtName hostname uuid short)
          header dump),
      (fs (pjoin backupPath (imgName hostname uuid short)) = none
        ∨ fs (pjoin backupPath (imgName hostname uuid short)) = some header)
      ∧ (fs (pjoin backupPath (txtName hostname uuid short)) = none
        ∨ fs (pjoin backupPath (txtName hostname uuid short)) = some dump)) := by
  constructor
  · have lcT1 : lastChar (pjoin tempPath (uuid ++ ".img.tmp")) = lastChar ".img.tmp" :=
      lastChar_pjoin_suffix tempPath uuid ".img.tmp" (by decide)
    have lcT2 : lastChar (pjoin tempPath (uuid ++ ".txt.tmp")) = lastChar ".txt.tmp" :=
      lastChar_pjoin_suffix tempPath uuid ".txt.tmp" (by decide)
    have lcF1 : lastChar (pjoin tempPath (imgName hostname uuid short)) = lastChar ".img" :=
      lastChar_pjoin_suffix tempPath
        ("luks_header_backup." ++ hostname ++ "." ++ uuid ++ "." ++ short) ".img" (by decide)
    have lcF2 : lastChar (pjoin tempPath (txtName hostname uuid short)) = lastChar ".txt" :=
      lastChar_pjoin_suffix tempPath
        ("luks_header_backup." ++ hostname ++ "." ++ uuid ++ "." ++ short) ".txt" (by decide)
    exact staged_pair_writes_first fs0
      (pjoin tempPath (uuid ++ ".img.tmp")) (pjoin tempPath (uuid ++ ".txt.tmp"))
      (pjoin tempPath (imgName hostname uuid short))
      (pjoin tempPath (txtName hostname uuid short)) header dump
      (ne_of_lastChar (by rw [lcT1, lcF1]; decide))
      (ne_of_lastChar (by rw [lcT1, lcF2]; decide))
      (ne_of_lastChar (by rw [lcT2, lcF1]; decide))
      (ne_of_lastChar (by rw [lcT2, lcF2]; decide))
      (pjoin_ne_of_ne tempPath (append_ne_of_right_ne uuid (by decide)))
      (ne_of_lastChar (by rw [lcF1, lcF2]; decide))
      hs1 hs2
  · have lcib : lastChar (imgName hostname uuid short) = lastChar ".img" :=
      lastChar_append ("luks_header_backup." ++ hostname ++ "." ++ uuid ++ "." ++ short)
        ".img" (by decide)
    have lctb : lastChar (txtName hostname uuid short) = lastChar ".txt" :=
      lastChar_append ("luks_header_backup." ++ hostname ++ "." ++ uuid ++ "." ++ short)
        ".txt" (by decide)
    have hbase : imgName hostname uuid short ≠ txtName hostname uuid short :=
      ne_of_lastChar (by rw [lcib, lctb]; decide)
    have lcT1 : lastChar (pjoin backupPath (tmpName (imgName hostname uuid short)))
        = lastChar ".tmp" :=
      lastChar_pjoin_suffix backupPath ("." ++ imgName hostname uuid short) ".tmp" (by decide)
    have lcT2 : lastChar (pjoin backupPath (tmpName (txtName hostname uuid short)))
        = lastChar ".tmp" :=
      lastChar_pjoin_suffix backupPath ("." ++ txtName hostname uuid short) ".tmp" (by decide)
    have lcF1 : lastChar (pjoin backupPath (imgName hostname uuid short)) = lastChar ".img" :=
      lastChar_pjoin_suffix backupPath
        ("luks_header_backup." ++ hostname ++ "." ++ uuid ++ "." ++ short) ".img" (by decide)
    have lcF2 : lastChar (pjoin backupPath (txtName hostname uuid short)) = lastChar ".txt" :=
      lastChar_pjoin_suffix backupPath
        ("luks_header_backup." ++ hostname ++ "." ++ uuid ++ "." ++ short) ".txt" (by decide)
    exact staged_pair_interleaved fs1
      (pjoin backupPath (tmpName (imgName hostname uuid short)))
      (pjoin backupPath (tmpName (txtName hostname uuid short)))
      (pjoin backupPath (imgName hostname uuid short))
      (pjoin backupPath (txtName hostname uuid short)) header dump
      (ne_of_lastChar (by rw [lcT1, lcF1]; decide))
      (ne_of_lastChar (by rw [lcT1, lcF2]; decide))
      (ne_of_lastChar (by rw [lcT2, lcF1]; decide))
      (ne_of_lastChar (by rw [lcT2, lcF2]; decide))
      (ne_of_lastChar (by rw [lcF1, lcF2]; decide))
      hd1 hd2

/-- Witness for C9: the first observable staging state (the empty prefix
of the header written under the temp name) holds nothing under either
canonical name. -/
theorem atomic_visibility_witness :
    (setFile (fun _ => none : FS) (pjoin "/s" ("u" ++ ".img.tmp")) (List.take 0 [1])
        (pjoin "/s" (imgName "h" "u" "ab12cd34")) = none
      ∨ setFile (fun _ => none : FS) (pjoin "/s" ("u" ++ ".img.tmp")) (List.take 0 [1])
        (pjoin "/s" (imgName "h" "u" "ab12cd34")) = some [1])
    ∧ (setFile (fun _ => none : FS) (pjoin "/s" ("u" ++ ".img.tmp")) (List.take 0 [1])
        (pjoin "/s" (txtName "h" "u" "ab12cd34")) = none
      ∨ setFile (fun _ => none : FS) (pjoin "/s" ("u" ++ ".img.tmp")) (List.take 0 [1])
        (pjoin "/s" (txtName "h" "u" "ab12cd34")) = some [2]) :=
  (atomic_visibility "/s" "/b" "h" "u" "ab12cd34" [1] [2] (fun _ => none) (fun _ => none)
      rfl rfl rfl rfl).1
    (setFile (fun _ => none) (pjoin "/s" ("u" ++ ".img.tmp")) (List.take 0 [1]))
    (List.Mem.head _)
